import Mathlib

/-!
Verification development for the astronaut wellness dashboard
(face-mood detection, heart-rate aggregation, mood gate/redirect,
mood counselor, voice assistant retry loop).

Each section embeds the relevant JavaScript logic as executable Lean
definitions and proves the stated properties about them.
-/

/-! ## Mood tracker (`FaceMoodDetection.updateCurrentEmotion`) -/

/-- Observation consumed by the mood tracker: `some e` is a named emotion
string detected on the current frame, `none` is the absent (no-face /
camera-off) value, i.e. the JS `null`. -/
abbrev Obs := Option String

/-- State of `FaceMoodDetection` relevant to event emission: the field
`this.lastEmotion`, initialized to `null` in the constructor. -/
structure MoodState where
  lastEmotion : Obs
deriving DecidableEq

/-- Initial mood-tracker state: `this.lastEmotion = null`. -/
def initMoodState : MoodState := ⟨none⟩

/-- Embedding of `FaceMoodDetection.updateCurrentEmotion`.  In the source,
the non-null branch emits when `this.lastEmotion !== emotionData.emotion`
and the null branch emits when `this.lastEmotion !== null`; both branches
compare the observation against `lastEmotion`, update it on a difference,
and dispatch one `emotionchange` event whose payload is the new value.
Returns the new state and the emitted event payload, if any. -/
def updateCurrentEmotion (s : MoodState) (obs : Obs) : MoodState × Option Obs :=
  if s.lastEmotion = obs then (s, none)
  else (⟨obs⟩, some obs)

/-- Feed a sequence of observations through `updateCurrentEmotion`,
collecting every emitted `emotionchange` payload in order. -/
def runMoodFrom (s : MoodState) : List Obs → MoodState × List Obs
  | [] => (s, [])
  | o :: rest =>
    let p := updateCurrentEmotion s o
    let q := runMoodFrom p.1 rest
    (q.1, p.2.toList ++ q.2)

/-- Run the mood tracker from its initial state. -/
def runMood (obs : List Obs) : MoodState × List Obs := runMoodFrom initMoodState obs

/-- Number of positions of the list whose value differs from the previous
value, the value before the first element being `l`. -/
def changesFrom (l : Obs) : List Obs → Nat
  | [] => 0
  | o :: rest => (if l = o then 0 else 1) + changesFrom o rest

/-- Number of maximal runs of identical consecutive values of a list. -/
def runsCount : List Obs → Nat
  | [] => 0
  | o :: rest => 1 + changesFrom o rest

theorem runMoodFrom_length (s : MoodState) (obs : List Obs) :
    (runMoodFrom s obs).2.length = changesFrom s.lastEmotion obs := by
  induction obs generalizing s with
  | nil => rfl
  | cons o rest ih =>
    by_cases h : s.lastEmotion = o
    · simp [runMoodFrom, updateCurrentEmotion, h, changesFrom, ih]
    · simp [runMoodFrom, updateCurrentEmotion, h, changesFrom, ih]
      omega

/-- C1 (counterexample): on the observation sequence consisting of a single
absent value, the tracker emits no `emotionchange` event at all, although
the sequence has one maximal run of identical consecutive values; so the
claim that an event fires exactly once per maximal run is false as stated. -/
theorem c1_counterexample :
    (runMood [none]).2.length = 0 ∧ runsCount [none] = 1 ∧
      (runMood [none]).2.length ≠ runsCount [none] := by
  refine ⟨rfl, rfl, ?_⟩
  decide

/-- C1 (amended): an `emotionchange` event is emitted exactly when the
observed value differs from the tracked last-emitted value, which is
initialized to the absent value; consequently the tracker emits exactly
once per maximal run of identical consecutive values, except that a
leading run of the absent value (equal to the initial last-emitted state)
emits nothing.  The absent value otherwise follows the same
change-detection rule as named emotions. -/
theorem c1_edge_triggered (obs : List Obs) :
    ((runMood obs).2.length + (if obs.head? = some none then 1 else 0) = runsCount obs)
    ∧ (∀ (s : MoodState) (o : Obs),
        ((updateCurrentEmotion s o).2.isSome = true ↔ s.lastEmotion ≠ o)
        ∧ (updateCurrentEmotion s o).1.lastEmotion = o) := by
  constructor
  · have h := runMoodFrom_length initMoodState obs
    unfold runMood
    rw [h]
    cases obs with
    | nil => rfl
    | cons o rest =>
      by_cases ho : o = (none : Obs)
      · subst ho
        simp [initMoodState, changesFrom, runsCount]
        omega
      · simp [initMoodState, changesFrom, runsCount, ho, Ne.symm ho]
  · intro s o
    constructor
    · by_cases h : s.lastEmotion = o
      · simp [updateCurrentEmotion, h]
      · simp [updateCurrentEmotion, h]
    · by_cases h : s.lastEmotion = o
      · simp [updateCurrentEmotion, h]
      · simp [updateCurrentEmotion, h]

/-! ## Dashboard mood gate and redirect controller (`initDashboard`) -/

/-- State of the dashboard redirect controller: the hidden counter
`sadMoodCount` and the one-shot flag `hasRedirected` from `initDashboard`. -/
structure DashState where
  sadMoodCount : Nat
  hasRedirected : Bool
deriving DecidableEq

/-- Per-event observable outputs of the `emotionchange` listener in
`initDashboard`: whether the games gate ended up locked after the event
(`updateGamesGate`: locked iff the emotion is not `sad`) and whether the
navigation to `games.html` was performed on this event. -/
structure DashOut where
  gateLocked : Bool
  navigated : Bool
deriving DecidableEq

/-- Embedding of the `emotionchange` listener registered in
`initDashboard`: recompute the gate from the event emotion, then, when the
emotion is `sad`, increment `sadMoodCount` and perform the one-time
navigation when the counter has reached 3 and no redirect happened yet. -/
def dashOnEmotionChange (s : DashState) (emotion : Obs) : DashState × DashOut :=
  if emotion = some "sad" then
    if s.hasRedirected = false ∧ 3 ≤ s.sadMoodCount + 1 then
      (⟨s.sadMoodCount + 1, true⟩, ⟨false, true⟩)
    else
      (⟨s.sadMoodCount + 1, s.hasRedirected⟩, ⟨false, false⟩)
  else
    (s, ⟨true, false⟩)

/-- Embedding of the initialization in `initDashboard`: `sadMoodCount`
starts at 0 and is pre-seeded by one when `window.currentEmotion` is
already `sad` on load; no redirect has happened yet. -/
def initDashState (current : Obs) : DashState :=
  ⟨if current = some "sad" then 1 else 0, false⟩

/-- Initial gate computed by `updateGamesGate(window.currentEmotion || null)`:
locked iff the current emotion is not `sad`. -/
def initGateLocked (current : Obs) : Bool := decide (current ≠ some "sad")

/-- Feed a sequence of `emotionchange` payloads through the dashboard
listener, collecting the per-event outputs. -/
def runDashFrom (s : DashState) : List Obs → DashState × List DashOut
  | [] => (s, [])
  | e :: rest =>
    let p := dashOnEmotionChange s e
    let q := runDashFrom p.1 rest
    (q.1, p.2 :: q.2)

/-- Number of navigation side effects performed while processing a
sequence of `emotionchange` payloads. -/
def navCount (s : DashState) (es : List Obs) : Nat :=
  ((runDashFrom s es).2.filter (fun o => o.navigated)).length


theorem dashStep_notSad (s : DashState) (e : Obs) (he : e ≠ some "sad") :
    dashOnEmotionChange s e = (s, ⟨true, false⟩) := by
  unfold dashOnEmotionChange
  rw [if_neg he]

theorem dashStep_sad_fire (s : DashState)
    (hr : s.hasRedirected = false ∧ 3 ≤ s.sadMoodCount + 1) :
    dashOnEmotionChange s (some "sad") = (⟨s.sadMoodCount + 1, true⟩, ⟨false, true⟩) := by
  unfold dashOnEmotionChange
  rw [if_pos rfl, if_pos hr]

theorem dashStep_sad_quiet (s : DashState)
    (hr : ¬(s.hasRedirected = false ∧ 3 ≤ s.sadMoodCount + 1)) :
    dashOnEmotionChange s (some "sad")
      = (⟨s.sadMoodCount + 1, s.hasRedirected⟩, ⟨false, false⟩) := by
  unfold dashOnEmotionChange
  rw [if_pos rfl, if_neg hr]

theorem navCount_cons (s : DashState) (e : Obs) (rest : List Obs) :
    navCount s (e :: rest) =
      (if (dashOnEmotionChange s e).2.navigated then 1 else 0)
        + navCount (dashOnEmotionChange s e).1 rest := by
  by_cases h : (dashOnEmotionChange s e).2.navigated
  · simp [navCount, runDashFrom, List.filter_cons, h]
    omega
  · simp [navCount, runDashFrom, List.filter_cons, h]

/-- C2: with target mood `sad` and required count 3, the counter increments
by exactly one on every `emotionchange` whose emotion is `sad` (and only
then), it is pre-seeded by one exactly when the current emotion is already
`sad` at initialization, navigation is performed on an event exactly when
the emotion is `sad`, no redirect happened yet and the incremented counter
reaches 3 (so the one-time navigation fires when the counter first reaches
3); and on the stream `[neutral, sad, neutral, sad, happy, sad]` from an
un-seeded start the gate is unlocked exactly at positions 2, 4 and 6 and
the redirect fires exactly on the third `sad` occurrence (position 6). -/
theorem c2_sad_gate_scenario :
    (∀ (s : DashState) (e : Obs),
        (dashOnEmotionChange s e).1.sadMoodCount
          = s.sadMoodCount + (if e = some "sad" then 1 else 0))
    ∧ (∀ current : Obs,
        (initDashState current).sadMoodCount = (if current = some "sad" then 1 else 0)
        ∧ (initDashState current).hasRedirected = false)
    ∧ (∀ (s : DashState) (e : Obs),
        (dashOnEmotionChange s e).2.navigated = true
          ↔ (e = some "sad" ∧ s.hasRedirected = false ∧ 3 ≤ s.sadMoodCount + 1))
    ∧ (∀ (s : DashState) (e : Obs),
        (dashOnEmotionChange s e).2.gateLocked = false ↔ e = some "sad")
    ∧ (runDashFrom (initDashState none)
        [some "neutral", some "sad", some "neutral", some "sad", some "happy", some "sad"]).2
      = [⟨true, false⟩, ⟨false, false⟩, ⟨true, false⟩,
         ⟨false, false⟩, ⟨true, false⟩, ⟨false, true⟩] := by
  refine ⟨?_, ?_, ?_, ?_, ?_⟩
  · intro s e
    by_cases he : e = some "sad"
    · subst he
      rw [if_pos rfl]
      by_cases hr : s.hasRedirected = false ∧ 3 ≤ s.sadMoodCount + 1
      · rw [dashStep_sad_fire s hr]
      · rw [dashStep_sad_quiet s hr]
    · rw [dashStep_notSad s e he, if_neg he]
      simp
  · intro current
    exact ⟨rfl, rfl⟩
  · intro s e
    by_cases he : e = some "sad"
    · subst he
      by_cases hr : s.hasRedirected = false ∧ 3 ≤ s.sadMoodCount + 1
      · rw [dashStep_sad_fire s hr]
        exact ⟨fun _ => ⟨rfl, hr.1, hr.2⟩, fun _ => rfl⟩
      · rw [dashStep_sad_quiet s hr]
        constructor
        · intro h
          exact absurd h (by simp)
        · intro h
          exact absurd ⟨h.2.1, h.2.2⟩ hr
    · rw [dashStep_notSad s e he]
      constructor
      · intro h
        exact absurd h (by simp)
      · intro h
        exact absurd h.1 he
  · intro s e
    by_cases he : e = some "sad"
    · subst he
      by_cases hr : s.hasRedirected = false ∧ 3 ≤ s.sadMoodCount + 1
      · rw [dashStep_sad_fire s hr]
        simp
      · rw [dashStep_sad_quiet s hr]
        simp
    · rw [dashStep_notSad s e he]
      simp [he]
  · decide

/-- C3: the redirect flag is a one-shot latch.  For every starting state
and every sequence of `emotionchange` payloads, the final `hasRedirected`
is the initial one or-ed with whether a navigation occurred during the
sequence (so once true it never resets), and the number of navigation side
effects is 0 from an already-redirected state and at most 1 otherwise,
regardless of further `emotionchange` events or `sad` counter increments. -/
theorem c3_redirect_latch (s : DashState) (es : List Obs) :
    (runDashFrom s es).1.hasRedirected = (s.hasRedirected || decide (1 ≤ navCount s es))
    ∧ navCount s es ≤ (if s.hasRedirected then 0 else 1) := by
  induction es generalizing s with
  | nil =>
    refine ⟨by simp [runDashFrom, navCount], ?_⟩
    cases h : s.hasRedirected <;> simp [runDashFrom, navCount]
  | cons e rest ih =>
    have hrun1 : (runDashFrom s (e :: rest)).1 = (runDashFrom (dashOnEmotionChange s e).1 rest).1 := rfl
    have hcons := navCount_cons s e rest
    by_cases he : e = some "sad"
    · subst he
      by_cases hr : s.hasRedirected = false ∧ 3 ≤ s.sadMoodCount + 1
      · rw [dashStep_sad_fire s hr] at hrun1 hcons
        simp only [if_pos rfl] at hcons
        have ih2 := ih ⟨s.sadMoodCount + 1, true⟩
        have hnav0 : navCount ⟨s.sadMoodCount + 1, true⟩ rest = 0 := by
          have h2 := ih2.2
          simp at h2
          exact h2
        have hnc : navCount s (some "sad" :: rest) = 1 := by
          rw [hcons, hnav0]
          simp
        constructor
        · rw [hrun1, ih2.1, hnav0, hnc, hr.1]
          simp
        · rw [hnc, hr.1]
          simp
      · rw [dashStep_sad_quiet s hr] at hrun1 hcons
        simp only [if_neg] at hcons
        have ih2 := ih ⟨s.sadMoodCount + 1, s.hasRedirected⟩
        have hnc : navCount s (some "sad" :: rest)
            = navCount ⟨s.sadMoodCount + 1, s.hasRedirected⟩ rest := by
          simpa using hcons
        constructor
        · rw [hrun1, ih2.1, hnc]
        · rw [hnc]
          simpa using ih2.2
    · rw [dashStep_notSad s e he] at hrun1 hcons
      have ih2 := ih s
      have hnc : navCount s (e :: rest) = navCount s rest := by
        simpa using hcons
      constructor
      · rw [hrun1, ih2.1, hnc]
      · rw [hnc]
        exact ih2.2

/-! ## Mood counselor (`MoodCounselor`) -/

/-- Configuration of `MoodCounselor`: the constructor options
`triggerEmotion` (default `sad`), `sustainMs` (default 5000) and
`cooldownMs` (default 60000; the dashboard instantiates 90000). -/
structure CCfg where
  triggerEmotion : String
  sustainMs : Nat
  cooldownMs : Nat

/-- Mutable state of `MoodCounselor`: `_sadSince` (streak start timestamp
or `null`), `_cooldownUntil` and `_speaking`. -/
structure CState where
  sadSince : Option Nat
  cooldownUntil : Nat
  speaking : Bool
deriving DecidableEq

/-- Initial counselor state: `_sadSince = null`, `_cooldownUntil = 0`,
`_speaking = false`. -/
def initCState : CState := ⟨none, 0, false⟩

/-- Input processed by the counselor: an `emotionchange` event carrying the
emotion and the wall-clock time `Date.now()`, or the asynchronous
completion of a spoken support sequence (the `finally` block of
`_speakSupport`, which clears `_speaking`). -/
inductive CEvent where
  | emotionAt (e : Obs) (now : Nat)
  | speechDone

/-- Embedding of `MoodCounselor._onEmotion` plus the synchronous prefix of
`_speakSupport`.  On a trigger-emotion event, `_sadSince` is populated with
`now` if unset; if not speaking, the streak is sustained for at least
`sustainMs` and `now` has reached `_cooldownUntil`, a spoken sequence
starts: `_speaking` becomes true and `_cooldownUntil` is set to
`now + cooldownMs` at trigger time.  On any other emotion the streak is
reset (`_sadSince = null`).  `speechDone` clears `_speaking`.  The Bool
output records whether this event started a spoken support sequence. -/
def counselorStep (cfg : CCfg) (s : CState) : CEvent → CState × Bool
  | .speechDone => (⟨s.sadSince, s.cooldownUntil, false⟩, false)
  | .emotionAt e now =>
    if e = some cfg.triggerEmotion then
      let since := s.sadSince.getD now
      if s.speaking = false ∧ cfg.sustainMs ≤ now - since ∧ s.cooldownUntil ≤ now then
        (⟨some since, now + cfg.cooldownMs, true⟩, true)
      else
        (⟨some since, s.cooldownUntil, s.speaking⟩, false)
    else
      (⟨none, s.cooldownUntil, s.speaking⟩, false)

theorem counselorStep_trigger_iff (cfg : CCfg) (s : CState) (now : Nat) :
    (counselorStep cfg s (.emotionAt (some cfg.triggerEmotion) now)).2 = true
      ↔ (s.speaking = false ∧ cfg.sustainMs ≤ now - s.sadSince.getD now
          ∧ s.cooldownUntil ≤ now) := by
  simp only [counselorStep]
  rw [if_pos trivial]
  by_cases h : s.speaking = false ∧ cfg.sustainMs ≤ now - s.sadSince.getD now
      ∧ s.cooldownUntil ≤ now
  · rw [if_pos h]
    exact ⟨fun _ => h, fun _ => rfl⟩
  · rw [if_neg h]
    constructor
    · intro hc
      exact absurd hc (by simp)
    · intro hc
      exact absurd hc h

theorem counselorStep_fire (cfg : CCfg) (s : CState) (now : Nat)
    (h : s.speaking = false ∧ cfg.sustainMs ≤ now - s.sadSince.getD now
        ∧ s.cooldownUntil ≤ now) :
    counselorStep cfg s (.emotionAt (some cfg.triggerEmotion) now)
      = (⟨some (s.sadSince.getD now), now + cfg.cooldownMs, true⟩, true) := by
  simp only [counselorStep]
  rw [if_pos trivial, if_pos h]

theorem counselorStep_quiet (cfg : CCfg) (s : CState) (now : Nat)
    (h : ¬(s.speaking = false ∧ cfg.sustainMs ≤ now - s.sadSince.getD now
        ∧ s.cooldownUntil ≤ now)) :
    counselorStep cfg s (.emotionAt (some cfg.triggerEmotion) now)
      = (⟨some (s.sadSince.getD now), s.cooldownUntil, s.speaking⟩, false) := by
  simp only [counselorStep]
  rw [if_pos trivial, if_neg h]

/-- C4: the counselor starts a spoken support sequence on a
trigger-emotion event exactly when it is not speaking, the elapsed time
since the recorded streak start reaches `sustainMs` and `now` has reached
`_cooldownUntil`; at trigger time `_cooldownUntil` is set to
`now + cooldownMs` and `_speaking` becomes true.  Hence, after a trigger
at time `t` and completion of that speech, a second trigger-emotion event
at time `tp` does not start a sequence when `tp - t` is less than the
cooldown duration (exactly one spoken sequence), and does start one when
`tp - t` exceeds the cooldown duration (both trigger). -/
theorem c4_counselor_cooldown (cfg : CCfg) (s : CState) (t tp : Nat)
    (h1 : (counselorStep cfg s (.emotionAt (some cfg.triggerEmotion) t)).2 = true)
    (hle : t ≤ tp) :
    ((counselorStep cfg s (.emotionAt (some cfg.triggerEmotion) t)).1.cooldownUntil
        = t + cfg.cooldownMs)
    ∧ ((counselorStep cfg s (.emotionAt (some cfg.triggerEmotion) t)).1.speaking = true)
    ∧ (tp < t + cfg.cooldownMs →
        (counselorStep cfg
          (counselorStep cfg
            (counselorStep cfg s (.emotionAt (some cfg.triggerEmotion) t)).1
            CEvent.speechDone).1
          (.emotionAt (some cfg.triggerEmotion) tp)).2 = false)
    ∧ (t + cfg.cooldownMs < tp →
        (counselorStep cfg
          (counselorStep cfg
            (counselorStep cfg s (.emotionAt (some cfg.triggerEmotion) t)).1
            CEvent.speechDone).1
          (.emotionAt (some cfg.triggerEmotion) tp)).2 = true) := by
  have hcond := (counselorStep_trigger_iff cfg s t).1 h1
  rw [counselorStep_fire cfg s t hcond]
  have hs2 : (counselorStep cfg
      (⟨some (s.sadSince.getD t), t + cfg.cooldownMs, true⟩ : CState) CEvent.speechDone).1
      = (⟨some (s.sadSince.getD t), t + cfg.cooldownMs, false⟩ : CState) := rfl
  refine ⟨rfl, rfl, ?_, ?_⟩
  · intro hlt
    show (counselorStep cfg
        (counselorStep cfg
          (⟨some (s.sadSince.getD t), t + cfg.cooldownMs, true⟩ : CState)
          CEvent.speechDone).1
        (.emotionAt (some cfg.triggerEmotion) tp)).2 = false
    rw [hs2, counselorStep_quiet]
    intro hc
    have := hc.2.2
    simp at this
    omega
  · intro hlt
    show (counselorStep cfg
        (counselorStep cfg
          (⟨some (s.sadSince.getD t), t + cfg.cooldownMs, true⟩ : CState)
          CEvent.speechDone).1
        (.emotionAt (some cfg.triggerEmotion) tp)).2 = true
    rw [hs2, counselorStep_fire]
    refine ⟨rfl, ?_, ?_⟩
    · show cfg.sustainMs ≤ tp - (some (s.sadSince.getD t)).getD tp
      have hsust : cfg.sustainMs ≤ t - s.sadSince.getD t := hcond.2.1
      simp only [Option.getD_some]
      omega
    · show t + cfg.cooldownMs ≤ tp
      omega

/-- C4 witness: with the dashboard configuration (`sad`, 5000ms sustain,
90000ms cooldown), a sustained-sad trigger at t = 5000 followed by speech
completion and a second sad event at t = 100000 (past the cooldown)
starts a second spoken sequence. -/
theorem c4_counselor_cooldown_witness :
    (counselorStep ⟨"sad", 5000, 90000⟩
      (counselorStep ⟨"sad", 5000, 90000⟩
        (counselorStep ⟨"sad", 5000, 90000⟩ ⟨some 0, 0, false⟩
          (.emotionAt (some "sad") 5000)).1
        CEvent.speechDone).1
      (.emotionAt (some "sad") 100000)).2 = true :=
  (c4_counselor_cooldown ⟨"sad", 5000, 90000⟩ ⟨some 0, 0, false⟩ 5000 100000
    (by decide) (by decide)).2.2.2 (by decide)

/-- Embedding of the message loop in `MoodCounselor._speakSupport`: each
message is awaited in order and, after each message, the loop checks
whether `this._sadSince == null` (the streak was reset) and breaks early
if so.  `checks` is the sequence of values of that test as observed at the
check following each message (the state may have changed during the
awaited utterance); a missing entry stands for an unreset streak.  Returns
the messages actually spoken. -/
def speakLoop : List String → List Bool → List String
  | [], _ => []
  | m :: rest, checks =>
    if checks.head?.getD false then [m]
    else m :: speakLoop rest checks.tail

/-- Embedding of `MoodCounselor._speakSupport` after its synchronous
prefix: deliver the messages through `speakLoop`; the `try`/`finally`
block guarantees `_speaking = false` on both completion and early abort,
and the loop has no other exit.  Returns the spoken messages and the final
value of `_speaking`. -/
def speakSupport (msgs : List String) (checks : List Bool) : List String × Bool :=
  (speakLoop msgs checks, false)

/-- C5: if the streak-reset check first observes a reset at the check
point after message `k` (the mood changed away from the target during the
sequence), then exactly the messages up to and including message `k` are
spoken and the remaining ones are not; and in every terminating execution
the `_speaking` flag returns to false. -/
theorem c5_abort_midsequence (msgs : List String) (checks : List Bool) (k : Nat)
    (hk : checks[k]? = some true)
    (hfirst : ∀ j, j < k → checks[j]? = some false) :
    (speakSupport msgs checks).1 = msgs.take (k + 1)
    ∧ (speakSupport msgs checks).2 = false := by
  refine ⟨?_, rfl⟩
  show speakLoop msgs checks = msgs.take (k + 1)
  induction msgs generalizing checks k with
  | nil => simp [speakLoop]
  | cons m rest ih =>
    cases k with
    | zero =>
      cases checks with
      | nil => simp at hk
      | cons c cs =>
        simp at hk
        subst hk
        simp [speakLoop]
    | succ k =>
      cases checks with
      | nil => simp at hk
      | cons c cs =>
        have hc0 : c = false := by
          have := hfirst 0 (Nat.succ_pos k)
          simpa using this
        subst hc0
        have hk2 : cs[k]? = some true := by simpa using hk
        have hfirst2 : ∀ j, j < k → cs[j]? = some false := by
          intro j hj
          have := hfirst (j + 1) (Nat.succ_lt_succ hj)
          simpa using this
        simp only [speakLoop, Option.getD_some, List.head?_cons, List.tail_cons]
        rw [if_neg (by simp)]
        rw [ih cs k hk2 hfirst2]
        rfl

/-- C5 witness: with three messages and a reset observed at the check
after the second message, exactly the first two messages are spoken and
the speaking flag ends false. -/
theorem c5_abort_midsequence_witness :
    (speakSupport ["a", "b", "c"] [false, true]).1 = ["a", "b"]
    ∧ (speakSupport ["a", "b", "c"] [false, true]).2 = false :=
  c5_abort_midsequence ["a", "b", "c"] [false, true] 1 (by decide)
    (by decide)

/-- C10: the between-message abort check of `_speakSupport` inspects only
whether `_sadSince` is unset at the moment of the check.  If the emotion
changes away from the target at time `t1` (unsetting `_sadSince`) and back
to the target at time `t2` (repopulating it with `t2`) before the next
check, the check observes a non-null `_sadSince`, so the sequence does not
abort and the remaining messages are still spoken. -/
theorem c10_no_abort_on_flicker (cfg : CCfg) (s : CState) (e : Obs) (t1 t2 : Nat)
    (he : e ≠ some cfg.triggerEmotion) :
    ((counselorStep cfg s (.emotionAt e t1)).1.sadSince = none)
    ∧ ((counselorStep cfg (counselorStep cfg s (.emotionAt e t1)).1
          (.emotionAt (some cfg.triggerEmotion) t2)).1.sadSince = some t2)
    ∧ (∀ (m : String) (rest : List String) (checks : List Bool),
        speakLoop (m :: rest)
            (decide ((counselorStep cfg (counselorStep cfg s (.emotionAt e t1)).1
                (.emotionAt (some cfg.triggerEmotion) t2)).1.sadSince = none) :: checks)
          = m :: speakLoop rest checks) := by
  have h1 : (counselorStep cfg s (.emotionAt e t1)).1
      = (⟨none, s.cooldownUntil, s.speaking⟩ : CState) := by
    simp only [counselorStep]
    rw [if_neg he]
  have hsince : ((⟨none, s.cooldownUntil, s.speaking⟩ : CState)).sadSince.getD t2 = t2 := rfl
  have h2 : (counselorStep cfg (counselorStep cfg s (.emotionAt e t1)).1
      (.emotionAt (some cfg.triggerEmotion) t2)).1.sadSince = some t2 := by
    rw [h1]
    by_cases hc : (⟨none, s.cooldownUntil, s.speaking⟩ : CState).speaking = false
        ∧ cfg.sustainMs ≤ t2 - (⟨none, s.cooldownUntil, s.speaking⟩ : CState).sadSince.getD t2
        ∧ (⟨none, s.cooldownUntil, s.speaking⟩ : CState).cooldownUntil ≤ t2
    · rw [counselorStep_fire cfg _ t2 hc]
      rfl
    · rw [counselorStep_quiet cfg _ t2 hc]
      rfl
  refine ⟨by rw [h1], h2, ?_⟩
  intro m rest checks
  rw [h2]
  simp [speakLoop]

/-- C10 witness: a concrete away-and-back flicker (happy at t=10, sad at
t=20) leaves the streak start repopulated, so the check point does not
abort. -/
theorem c10_no_abort_on_flicker_witness :
    (counselorStep ⟨"sad", 5000, 90000⟩
      (counselorStep ⟨"sad", 5000, 90000⟩ ⟨some 3, 7, false⟩
        (.emotionAt (some "happy") 10)).1
      (.emotionAt (some "sad") 20)).1.sadSince = some 20 :=
  (c10_no_abort_on_flicker ⟨"sad", 5000, 90000⟩ ⟨some 3, 7, false⟩
    (some "happy") 10 20 (by decide)).2.1

/-! ## Bluetooth heart-rate monitor (`BluetoothHeartRateMonitor`) -/

/-- Stress threshold in BPM (`this.stressThreshold = 100`). -/
def stressThreshold : ℚ := 100

/-- Rolling-window capacity (`this.avgWindow = 10`). -/
def avgWindow : Nat := 10

/-- Arithmetic mean of the window, as computed by
`reduce((a, b) => a + b, 0) / length`. -/
def hrAverage (data : List Int) : ℚ := (data.sum : ℚ) / (data.length : ℚ)

/-- Payload of a `heartrate` event: the sample and the rolling average. -/
structure HREvent where
  value : Int
  average : ℚ
deriving DecidableEq

/-- Payload of a `stressdetected` event: the kind (the JS detail field
named `type`, always `high_heart_rate`), the most recent sample and the
rolling average. -/
structure StressEvent where
  kind : String
  value : Int
  average : ℚ
deriving DecidableEq

/-- Window update of `updateHeartRate`: push the sample, then `shift()`
the oldest one out if the length exceeds `avgWindow`. -/
def pushSample (data : List Int) (bpm : Int) : List Int :=
  let d := data ++ [bpm]
  if avgWindow < d.length then d.tail else d

/-- Embedding of `BluetoothHeartRateMonitor.updateHeartRate`: update the
rolling window and emit a `heartrate` event with the sample and the
current rolling average. -/
def updateHeartRate (data : List Int) (bpm : Int) : List Int × HREvent :=
  let d := pushSample data bpm
  (d, ⟨bpm, hrAverage d⟩)

/-- Embedding of `BluetoothHeartRateMonitor.checkForStress` together with
`triggerStressRelief`: return early when the window holds fewer than 3
samples; publish a `stressdetected` event when the average exceeds the
threshold and the window holds at least 5 samples, carrying
`heartRateData[heartRateData.length - 1]` and the average. -/
def checkForStress (data : List Int) : Option StressEvent :=
  if data.length < 3 then none
  else if stressThreshold < hrAverage data ∧ 5 ≤ data.length then
    some ⟨"high_heart_rate", data.getD (data.length - 1) 0, hrAverage data⟩
  else none

/-- Embedding of `BluetoothHeartRateMonitor.onHeartRateChanged`: a parsed
sample is processed only when strictly positive; otherwise it is dropped
with no window update and no event. -/
def onHeartRateChanged (data : List Int) (bpm : Int) :
    List Int × Option HREvent × Option StressEvent :=
  if 0 < bpm then
    let p := updateHeartRate data bpm
    (p.1, some p.2, checkForStress p.1)
  else (data, none, none)

/-- Feed a stream of parsed samples through `onHeartRateChanged`,
collecting the emitted `heartrate` and `stressdetected` events in order. -/
def runHR (data : List Int) : List Int → List Int × List HREvent × List StressEvent
  | [] => (data, [], [])
  | b :: rest =>
    let p := onHeartRateChanged data b
    let q := runHR p.1 rest
    (q.1, p.2.1.toList ++ q.2.1, p.2.2.toList ++ q.2.2)

/-- The last `n` elements of a list. -/
def lastWindow (n : Nat) (l : List Int) : List Int := l.drop (l.length - n)

/-- The samples of a stream that the monitor accepts (strictly positive). -/
def acceptedSamples (samples : List Int) : List Int :=
  samples.filter (fun b => decide (0 < b))

theorem lastWindow_nil (n : Nat) : lastWindow n ([] : List Int) = [] := by
  simp [lastWindow]

theorem lastWindow_length_le (n : Nat) (l : List Int) : (lastWindow n l).length ≤ n := by
  simp [lastWindow]
  omega

theorem pushSample_lastWindow (acc : List Int) (b : Int) :
    pushSample (lastWindow avgWindow acc) b = lastWindow avgWindow (acc ++ [b]) := by
  have hw : avgWindow = 10 := rfl
  unfold pushSample lastWindow
  simp only [List.length_append, List.length_drop, List.length_cons, List.length_nil]
  by_cases h : acc.length < 10
  · rw [if_neg]
    · have h0 : acc.length - avgWindow = 0 := by rw [hw]; omega
      have h1 : acc.length + (0 + 1) - avgWindow = 0 := by rw [hw]; omega
      rw [h0, List.drop_zero, h1, List.drop_zero]
    · rw [hw]
      omega
  · rw [if_pos]
    · have h2 : 1 ≤ (acc.drop (acc.length - avgWindow)).length := by
        rw [List.length_drop, hw]
        omega
      have h3 : acc.length + (0 + 1) - avgWindow ≤ acc.length := by
        rw [hw]
        omega
      rw [← List.drop_one (acc.drop (acc.length - avgWindow) ++ [b]),
        List.drop_append_of_le_length h2, List.drop_drop,
        List.drop_append_of_le_length h3]
      congr 2
      rw [hw]
      omega
    · rw [hw]
      omega

/-- Specification of the `heartrate` event stream: the event emitted for
each accepted sample carries the sample and the mean of the rolling
window (the last `avgWindow` accepted samples) right after that sample is
pushed, `acc` being the accepted samples already processed. -/
def hrEventsFrom (acc : List Int) : List Int → List HREvent
  | [] => []
  | b :: rest =>
    if 0 < b then
      ⟨b, hrAverage (lastWindow avgWindow (acc ++ [b]))⟩ :: hrEventsFrom (acc ++ [b]) rest
    else hrEventsFrom acc rest

theorem acceptedSamples_cons_pos (b : Int) (rest : List Int) (hb : 0 < b) :
    acceptedSamples (b :: rest) = b :: acceptedSamples rest := by
  simp [acceptedSamples, hb]

theorem acceptedSamples_cons_neg (b : Int) (rest : List Int) (hb : ¬0 < b) :
    acceptedSamples (b :: rest) = acceptedSamples rest := by
  simp [acceptedSamples, hb]

theorem runHR_spec (samples : List Int) : ∀ acc : List Int,
    (runHR (lastWindow avgWindow acc) samples).1
        = lastWindow avgWindow (acc ++ acceptedSamples samples)
    ∧ (runHR (lastWindow avgWindow acc) samples).2.1 = hrEventsFrom acc samples := by
  induction samples with
  | nil =>
    intro acc
    simp [runHR, acceptedSamples, hrEventsFrom]
  | cons b rest ih =>
    intro acc
    by_cases hb : 0 < b
    · have hstep : onHeartRateChanged (lastWindow avgWindow acc) b
          = (lastWindow avgWindow (acc ++ [b]),
             some ⟨b, hrAverage (lastWindow avgWindow (acc ++ [b]))⟩,
             checkForStress (lastWindow avgWindow (acc ++ [b]))) := by
        unfold onHeartRateChanged updateHeartRate
        rw [if_pos hb, pushSample_lastWindow]
      have ih2 := ih (acc ++ [b])
      have happ : (acc ++ [b]) ++ acceptedSamples rest = acc ++ acceptedSamples (b :: rest) := by
        rw [acceptedSamples_cons_pos b rest hb]
        simp
      constructor
      · simp only [runHR, hstep]
        rw [ih2.1, happ]
      · simp only [runHR, hstep]
        rw [ih2.2]
        simp [hrEventsFrom, hb]
    · have hstep : onHeartRateChanged (lastWindow avgWindow acc) b
          = (lastWindow avgWindow acc, none, none) := by
        unfold onHeartRateChanged
        rw [if_neg hb]
      have ih2 := ih acc
      constructor
      · simp only [runHR, hstep]
        rw [ih2.1, acceptedSamples_cons_neg b rest hb]
      · simp only [runHR, hstep]
        rw [ih2.2]
        simp [hrEventsFrom, hb]

theorem hrEventsFrom_length (samples : List Int) : ∀ acc : List Int,
    (hrEventsFrom acc samples).length = (acceptedSamples samples).length := by
  induction samples with
  | nil =>
    intro acc
    simp [hrEventsFrom, acceptedSamples]
  | cons b rest ih =>
    intro acc
    by_cases hb : 0 < b
    · rw [acceptedSamples_cons_pos b rest hb]
      simp [hrEventsFrom, hb, ih (acc ++ [b])]
    · rw [acceptedSamples_cons_neg b rest hb]
      simp [hrEventsFrom, hb, ih acc]

theorem hrEventsFrom_getElem (samples : List Int) : ∀ (acc : List Int) (i : Nat),
    i < (acceptedSamples samples).length →
      (hrEventsFrom acc samples)[i]? =
        some ⟨(acceptedSamples samples).getD i 0,
              hrAverage (lastWindow avgWindow (acc ++ (acceptedSamples samples).take (i + 1)))⟩ := by
  induction samples with
  | nil =>
    intro acc i hi
    simp [acceptedSamples] at hi
  | cons b rest ih =>
    intro acc i hi
    by_cases hb : 0 < b
    · rw [acceptedSamples_cons_pos b rest hb] at hi ⊢
      simp only [hrEventsFrom, if_pos hb]
      cases i with
      | zero =>
        simp
      | succ i =>
        have hi2 : i < (acceptedSamples rest).length := by simpa using hi
        rw [List.getElem?_cons_succ, ih (acc ++ [b]) i hi2]
        rw [List.getD_cons_succ, List.take_succ_cons]
        simp [List.append_assoc]
    · rw [acceptedSamples_cons_neg b rest hb] at hi ⊢
      simp only [hrEventsFrom, if_neg hb]
      exact ih acc i hi

/-- C6: from an empty window, after processing any sample stream the
rolling window holds exactly the last `min(k, 10)` accepted samples (FIFO,
oldest evicted first) and its length never exceeds 10; one `heartrate`
event is emitted per accepted sample (once at least one sample exists);
and the `i`-th emitted event carries the `i`-th accepted sample together
with the arithmetic mean of the last `min(i+1, 10)` accepted samples,
never computed over more. -/
theorem c6_rolling_window (samples : List Int) :
    (runHR [] samples).1 = lastWindow avgWindow (acceptedSamples samples)
    ∧ (runHR [] samples).1.length ≤ avgWindow
    ∧ (runHR [] samples).2.1.length = (acceptedSamples samples).length
    ∧ ∀ i : Nat, i < (acceptedSamples samples).length →
        (runHR [] samples).2.1[i]? =
          some ⟨(acceptedSamples samples).getD i 0,
                hrAverage (lastWindow avgWindow ((acceptedSamples samples).take (i + 1)))⟩ := by
  have hspec := runHR_spec samples []
  rw [lastWindow_nil] at hspec
  simp only [List.nil_append] at hspec
  refine ⟨hspec.1, ?_, ?_, ?_⟩
  · rw [hspec.1]
    exact lastWindow_length_le avgWindow (acceptedSamples samples)
  · rw [hspec.2, hrEventsFrom_length samples []]
  · intro i hi
    rw [hspec.2]
    have h := hrEventsFrom_getElem samples [] i hi
    simpa using h

/-- C6 witness: on the stream `[70, -5, 80]` the second emitted heart-rate
event (index 1) carries the second accepted sample and the mean of the
window at that point. -/
theorem c6_rolling_window_witness :
    (runHR [] [70, -5, 80]).2.1[1]? =
      some ⟨(acceptedSamples [70, -5, 80]).getD 1 0,
            hrAverage (lastWindow avgWindow ((acceptedSamples [70, -5, 80]).take 2))⟩ :=
  (c6_rolling_window [70, -5, 80]).2.2.2 1 (by decide)

/-- C7: `checkForStress` publishes a `stressdetected` event exactly when
the window holds at least 5 samples and the window average exceeds the
100 bpm threshold (the `< 3` early return is subsumed), and the event then
carries kind `high_heart_rate`, the most recent sample
(`heartRateData[length - 1]`) and the window average; being a level check
it republishes on every qualifying sample.  On the stream
`[70, 72, 150, 155, 160]` the event fires exactly once, at the 5th sample,
with average 607/5 (≈ 121.4), and not earlier. -/
theorem c7_stress_level_check :
    (∀ data : List Int,
        ((checkForStress data).isSome
            = (decide (5 ≤ data.length) && decide (stressThreshold < hrAverage data)))
        ∧ (5 ≤ data.length → stressThreshold < hrAverage data →
            checkForStress data
              = some ⟨"high_heart_rate", data.getD (data.length - 1) 0, hrAverage data⟩))
    ∧ (runHR [] [70, 72, 150, 155, 160]).2.2
        = [⟨"high_heart_rate", 160, 607 / 5⟩]
    ∧ (runHR [] [70, 72, 150, 155]).2.2 = [] := by
  refine ⟨?_, ?_, ?_⟩
  · intro data
    constructor
    · by_cases h3 : data.length < 3
      · rw [checkForStress, if_pos h3]
        have h5 : ¬(5 ≤ data.length) := by omega
        simp [h5]
      · rw [checkForStress, if_neg h3]
        by_cases hc : stressThreshold < hrAverage data ∧ 5 ≤ data.length
        · rw [if_pos hc]
          simp [hc.1, hc.2]
        · rw [if_neg hc]
          simp only [Option.isSome_none, Bool.false_eq, Bool.and_eq_false_iff]
          by_cases h5 : 5 ≤ data.length
          · right
            simp only [decide_eq_false_iff_not]
            intro havg
            exact hc ⟨havg, h5⟩
          · left
            simp [h5]
    · intro h5 havg
      rw [checkForStress, if_neg (by omega), if_pos ⟨havg, h5⟩]
  · norm_num [runHR, onHeartRateChanged, updateHeartRate, pushSample, checkForStress,
      hrAverage, stressThreshold, avgWindow]
  · norm_num [runHR, onHeartRateChanged, updateHeartRate, pushSample, checkForStress,
      hrAverage, stressThreshold, avgWindow]

/-- C7 witness: a 5-sample window with average above threshold makes
`checkForStress` publish the event carrying the last sample and the
average. -/
theorem c7_stress_level_check_witness :
    checkForStress [70, 72, 150, 155, 160]
      = some ⟨"high_heart_rate",
              ([70, 72, 150, 155, 160] : List Int).getD
                (([70, 72, 150, 155, 160] : List Int).length - 1) 0,
              hrAverage [70, 72, 150, 155, 160]⟩ :=
  (c7_stress_level_check.1 [70, 72, 150, 155, 160]).2 (by decide)
    (by norm_num [hrAverage, stressThreshold])

/-- C8: a parsed heart-rate sample that is zero or negative is discarded
silently: the window is unchanged, no `heartrate` event and no
`stressdetected` event is emitted, and no error is surfaced (the handler
returns normally with all aggregator state unchanged). -/
theorem c8_nonpositive_sample_discarded (data : List Int) (bpm : Int) (h : bpm ≤ 0) :
    onHeartRateChanged data bpm = (data, none, none) := by
  rw [onHeartRateChanged, if_neg (by omega)]

/-- C8 witness: a zero sample leaves the window `[80]` unchanged and emits
nothing. -/
theorem c8_nonpositive_sample_discarded_witness :
    onHeartRateChanged [80] 0 = ([80], none, none) :=
  c8_nonpositive_sample_discarded [80] 0 (by decide)

/-! ## Voice assistant remote-call retry loop
(`MaitriAssistant.analyzeToneAndRespond`) -/

/-- Result of one `fetch` to the generative-language endpoint: a
successful response carrying the extracted candidate text (or `none` when
the response holds no text), or a non-success HTTP status. -/
inductive FetchResult where
  | ok (text : Option String)
  | err (status : Nat)
deriving DecidableEq

/-- `const maxRetries = 3`: the total number of loop iterations (fetch
attempts). -/
def maxRetries : Nat := 3

/-- The fixed user-facing fallback message displayed and spoken by the
`catch` block. -/
def fallbackMessage : String :=
  "Communication with Earth AI services is delayed. Please re-state your concern or try a simple command."

/-- The default reply used when a successful response carries no text. -/
def noReplyMessage : String :=
  "I\x27m sorry, I couldn\x27t generate a clear response right now. Can you try again?"

/-- Embedding of the retry loop `for (let i = 0; i < maxRetries; i++)`:
`responses i` is the result of the `i`-th fetch, `fuel` the number of
iterations remaining (`maxRetries - i`, so the guard `i < maxRetries - 1`
is `0 < fuel` after consuming this iteration).  A success breaks out; a
429 with iterations remaining sleeps `delay` ms and doubles it; any other
non-success throws immediately; an exhausted loop throws via the
`!response` check.  Returns the number of fetch attempts made, the list of
backoff delays slept, and the outcome. -/
def apiLoop (responses : Nat → FetchResult) :
    Nat → Nat → Nat → Nat × List Nat × Except String (Option String)
  | _, _, 0 => (0, [], Except.error "Failed to get response after retries.")
  | i, delay, fuel + 1 =>
    match responses i with
    | .ok t => (1, [], Except.ok t)
    | .err s =>
      if s = 429 ∧ 0 < fuel then
        let r := apiLoop responses (i + 1) (delay * 2) fuel
        (r.1 + 1, delay :: r.2.1, r.2.2)
      else (1, [], Except.error ("API returned status " ++ toString s))

/-- Embedding of the error handling of
`MaitriAssistant.analyzeToneAndRespond` around the remote call: run the
retry loop from attempt 0 with a 1000ms base delay; on success surface the
response text (or the default reply when it has none); on any thrown error
the `catch` block surfaces the fixed fallback message.  Returns the number
of fetch attempts, the backoff delays and the surfaced message. -/
def analyzeToneAndRespond (responses : Nat → FetchResult) : Nat × List Nat × String :=
  let r := apiLoop responses 0 1000 maxRetries
  (r.1, r.2.1,
    match r.2.2 with
    | Except.ok t => t.getD noReplyMessage
    | Except.error _ => fallbackMessage)

/-- C9: the remote-call error handling makes at most 3 fetch attempts;
retries happen only after rate-limit (429) responses, with exponential
backoff delays 1000ms, 2000ms (doubling from 1000ms); any other
non-success response on the first attempt fails immediately with no retry
and no delay; three consecutive 429 responses exhaust the retries; and
both exhaustion and immediate failure surface the single fixed fallback
message instead of crashing, while a success surfaces the response text. -/
theorem c9_retry_backoff (responses : Nat → FetchResult) :
    (analyzeToneAndRespond responses).1 ≤ 3
    ∧ (analyzeToneAndRespond responses).2.1
        = (List.range ((analyzeToneAndRespond responses).1 - 1)).map (fun j => 1000 * 2 ^ j)
    ∧ (∀ j : Nat, j + 1 < (analyzeToneAndRespond responses).1 → responses j = .err 429)
    ∧ ((responses 0 = .err 429 ∧ responses 1 = .err 429 ∧ responses 2 = .err 429) →
        (analyzeToneAndRespond responses).1 = 3
        ∧ (analyzeToneAndRespond responses).2.1 = [1000, 2000]
        ∧ (analyzeToneAndRespond responses).2.2 = fallbackMessage)
    ∧ (∀ s : Nat, s ≠ 429 → responses 0 = .err s →
        (analyzeToneAndRespond responses).1 = 1
        ∧ (analyzeToneAndRespond responses).2.1 = []
        ∧ (analyzeToneAndRespond responses).2.2 = fallbackMessage)
    ∧ (∀ t : Option String, responses 0 = .ok t →
        (analyzeToneAndRespond responses).2.2 = t.getD noReplyMessage) := by
  rcases h0 : responses 0 with t0 | s0
  · have hrun : analyzeToneAndRespond responses = (1, [], t0.getD noReplyMessage) := by
      simp [analyzeToneAndRespond, maxRetries, apiLoop, h0]
    rw [hrun]
    refine ⟨by norm_num, by simp, ?_, ?_, ?_, ?_⟩
    · intro j hj
      exact absurd hj (by omega)
    · intro hc
      exact absurd hc.1 (by simp)
    · intro s hs hr0
      exact FetchResult.noConfusion hr0
    · intro t ht
      injection ht with h
      rw [h]
  · by_cases hs0 : s0 = 429
    · subst hs0
      rcases h1 : responses 1 with t1 | s1
      · have hrun : analyzeToneAndRespond responses
            = (2, [1000], t1.getD noReplyMessage) := by
          simp [analyzeToneAndRespond, maxRetries, apiLoop, h0, h1]
        rw [hrun]
        refine ⟨by norm_num, by simp [List.range_succ], ?_, ?_, ?_, ?_⟩
        · intro j hj
          have hj0 : j = 0 := by omega
          subst hj0
          exact h0
        · intro hc
          exact absurd hc.2.1 (by simp)
        · intro s hs hr0
          injection hr0 with h
          exact absurd h.symm hs
        · intro t ht
          exact FetchResult.noConfusion ht
      · by_cases hs1 : s1 = 429
        · subst hs1
          rcases h2 : responses 2 with t2 | s2
          · have hrun : analyzeToneAndRespond responses
                = (3, [1000, 2000], t2.getD noReplyMessage) := by
              simp [analyzeToneAndRespond, maxRetries, apiLoop, h0, h1, h2]
            rw [hrun]
            refine ⟨by norm_num, by norm_num [List.range_succ], ?_, ?_, ?_, ?_⟩
            · intro j hj
              have hj01 : j = 0 ∨ j = 1 := by omega
              rcases hj01 with hj0 | hj1
              · subst hj0
                exact h0
              · subst hj1
                exact h1
            · intro hc
              exact absurd hc.2.2 (by simp)
            · intro s hs hr0
              injection hr0 with h
              exact absurd h.symm hs
            · intro t ht
              exact FetchResult.noConfusion ht
          · have hrun : analyzeToneAndRespond responses
                = (3, [1000, 2000], fallbackMessage) := by
              simp [analyzeToneAndRespond, maxRetries, apiLoop, h0, h1, h2]
            rw [hrun]
            refine ⟨by norm_num, by norm_num [List.range_succ], ?_, ?_, ?_, ?_⟩
            · intro j hj
              have hj01 : j = 0 ∨ j = 1 := by omega
              rcases hj01 with hj0 | hj1
              · subst hj0
                exact h0
              · subst hj1
                exact h1
            · intro hc
              exact ⟨rfl, rfl, rfl⟩
            · intro s hs hr0
              injection hr0 with h
              exact absurd h.symm hs
            · intro t ht
              exact FetchResult.noConfusion ht
        · have hrun : analyzeToneAndRespond responses = (2, [1000], fallbackMessage) := by
            simp [analyzeToneAndRespond, maxRetries, apiLoop, h0, h1, hs1]
          rw [hrun]
          refine ⟨by norm_num, by simp [List.range_succ], ?_, ?_, ?_, ?_⟩
          · intro j hj
            have hj0 : j = 0 := by omega
            subst hj0
            exact h0
          · intro hc
            injection hc.2.1 with h
            exact absurd h hs1
          · intro s hs hr0
            injection hr0 with h
            exact absurd h.symm hs
          · intro t ht
            exact FetchResult.noConfusion ht
    · have hrun : analyzeToneAndRespond responses = (1, [], fallbackMessage) := by
        simp [analyzeToneAndRespond, maxRetries, apiLoop, h0, hs0]
      rw [hrun]
      refine ⟨by norm_num, by simp, ?_, ?_, ?_, ?_⟩
      · intro j hj
        exact absurd hj (by omega)
      · intro hc
        injection hc.1 with h
        exact absurd h hs0
      · intro s hs hr0
        exact ⟨rfl, rfl, rfl⟩
      · intro t ht
        exact FetchResult.noConfusion ht

/-- C9 witness: three consecutive rate-limit responses exhaust the
retries after 3 attempts with backoff delays 1000ms and 2000ms and surface
the fixed fallback message. -/
theorem c9_retry_backoff_witness :
    (analyzeToneAndRespond (fun _ => FetchResult.err 429)).1 = 3
    ∧ (analyzeToneAndRespond (fun _ => FetchResult.err 429)).2.1 = [1000, 2000]
    ∧ (analyzeToneAndRespond (fun _ => FetchResult.err 429)).2.2 = fallbackMessage :=
  (c9_retry_backoff (fun _ => FetchResult.err 429)).2.2.2.1 ⟨rfl, rfl, rfl⟩
